import Mathlib

/-
  Verification of custom_components/nicehash/common.py
  (repository gyzod/ha_nicehash).

  The file shallowly embeds the two pieces of core logic:
  - the rig display-name resolver `resolve_rig_name` (with its inner
    helper `_normalize`), over a model `PyVal` of the loosely typed
    Python values it manipulates (null, strings, dicts, lists);
  - the data-update coordinator `_async_update_data` together with the
    constructor configuration (polling interval and fiat currency).

  Python operations that can raise (attribute access on a non-mapping,
  iteration of None) are embedded in the `Except String` monad, so that
  totality and failure of the source code are both expressible.
-/

namespace NiceHash

/-- Model of the Python values the resolver manipulates: None, strings,
dicts with string keys, and lists.  These are exactly the value shapes
the RigRecord data model allows. -/
inductive PyVal where
  | none : PyVal
  | str : String → PyVal
  | dict : List (String × PyVal) → PyVal
  | list : List PyVal → PyVal

/-- Python truthiness for the modelled values: None is falsy, strings,
dicts and lists are truthy when nonempty. -/
def PyVal.truthy : PyVal → Bool
  | .none => false
  | .str s => !(s = "")
  | .dict es => !es.isEmpty
  | .list xs => !xs.isEmpty

/-- Python `a or b`: the left operand when truthy, the right one otherwise. -/
def pyOr (a b : PyVal) : PyVal := if a.truthy then a else b

/-- Lookup of a key in the entry list of a dict (first entry wins, as a
Python dict has unique keys). -/
def dictFind (es : List (String × PyVal)) (k : String) : Option PyVal :=
  (es.find? (fun e => e.fst = k)).map (fun e => e.snd)

/-- Python `d.get(k)` on a dict value `d`: the stored value, or None when
the key is absent. -/
def pyDictGet (es : List (String × PyVal)) (k : String) : PyVal :=
  (dictFind es k).getD PyVal.none

/-- Python `d.get(k, default)` on a dict value `d`: the stored value
(which may itself be None), or the default when the key is absent. -/
def pyDictGetD (es : List (String × PyVal)) (k : String) (d : PyVal) : PyVal :=
  (dictFind es k).getD d

/-- Python `v.get(k)` on an arbitrary value: only mappings have a `get`
method, every other value raises AttributeError. -/
def pyGet (v : PyVal) (k : String) : Except String PyVal :=
  match v with
  | .dict es => Except.ok (pyDictGet es k)
  | _ => Except.error "AttributeError: object has no attribute get"

/-- Python iteration `for x in v`: lists yield their items, dicts their
keys, strings their characters; None is not iterable and raises TypeError. -/
def pyIter : PyVal → Except String (List PyVal)
  | .list xs => Except.ok xs
  | .dict es => Except.ok (es.map (fun e => PyVal.str e.fst))
  | .str s => Except.ok (s.data.map (fun c => PyVal.str (String.mk [c])))
  | .none => Except.error "TypeError: NoneType object is not iterable"

/-- Python str.strip(): drop leading and trailing whitespace.  Modelled
on the character list of the string (ASCII whitespace). -/
def pyStrip (s : String) : String :=
  String.mk (((s.data.dropWhile Char.isWhitespace).reverse.dropWhile
    Char.isWhitespace).reverse)

/-- Python str.upper(): upper-case every character.  Modelled on the
character list of the string (Char.toUpper upcases ASCII letters). -/
def pyUpper (s : String) : String := String.mk (s.data.map Char.toUpper)

/-- The module constant PLACEHOLDER_RIG_NAMES from common.py (a set in
the source; only membership is ever used, so a list is a faithful model). -/
def PLACEHOLDER_RIG_NAMES : List String := ["__DEFAULT__", "- UNMANAGED -", "UNMANAGED"]

/-- The local set comprehension in resolve_rig_name:
placeholder_tokens = the upper-cased placeholder names. -/
def placeholder_tokens : List String := PLACEHOLDER_RIG_NAMES.map pyUpper

/-- The inner helper `_normalize` of resolve_rig_name: a non-string is
rejected, a string is stripped, and rejected when empty or when its
upper-cased form is a placeholder token; otherwise the stripped string
is kept. -/
def _normalize (value : PyVal) : Option String :=
  match value with
  | .str v =>
    let name := pyStrip v
    if name = "" then Option.none
    else if pyUpper name ∈ placeholder_tokens then Option.none
    else some name
  | _ => Option.none

/-- The tuple `keys` of probed field names in resolve_rig_name. -/
def keys : List String :=
  ["name", "displayName", "rigDisplayName", "label", "worker", "rigName", "groupName"]

/-- Lines 84-104 of common.py: the construction of the candidate list for
a truthy rig dict with entries `es`.  Each step that can raise in Python
(a `.get` on a non-mapping, iterating None) is an Except step, in the
order the source performs them. -/
def buildCandidates (es : List (String × PyVal)) : Except String (List PyVal) :=
  let metadata := pyOr (pyDictGet es "metadata") (PyVal.dict [])
  let group := pyOr (pyDictGet es "group") (PyVal.dict [])
  let v4 := pyOr (pyDictGet es "v4") (PyVal.dict [])
  match pyGet v4 "mmv" with
  | Except.error e => Except.error e
  | Except.ok mmv0 =>
    let mmv := pyOr mmv0 (PyVal.dict [])
    let cands := keys.map (fun k => pyDictGet es k)
    match keys.mapM (fun k => pyGet metadata k) with
    | Except.error e => Except.error e
    | Except.ok mcands =>
      let gcands :=
        match group with
        | PyVal.dict ges => keys.map (fun k => pyDictGet ges k)
        | _ => []
      let cands := cands ++ mcands ++ gcands ++ [pyDictGet es "groupName"]
      match pyGet mmv "workerName" with
      | Except.error e => Except.error e
      | Except.ok wn =>
        let cands := cands ++ [wn]
        match pyGet v4 "osv" with
        | Except.error e => Except.error e
        | Except.ok osv0 =>
          match pyIter (pyOr osv0 (PyVal.list [])) with
          | Except.error e => Except.error e
          | Except.ok osvEntries =>
            match osvEntries.mapM (fun ov => pyGet ov "value") with
            | Except.error e => Except.error e
            | Except.ok osvVals =>
              let cands := cands ++ osvVals
              match pyGet v4 "devices" with
              | Except.error e => Except.error e
              | Except.ok devs0 =>
                match pyIter (pyOr devs0 (PyVal.list [])) with
                | Except.error e => Except.error e
                | Except.ok v4devs =>
                  match v4devs.mapM (fun d =>
                      match pyGet d "dsv" with
                      | Except.error e => Except.error e
                      | Except.ok dsv0 => pyGet (pyOr dsv0 (PyVal.dict [])) "name") with
                  | Except.error e => Except.error e
                  | Except.ok dsvNames =>
                    let cands := cands ++ dsvNames
                    match pyIter (pyDictGetD es "devices" (PyVal.list [])) with
                    | Except.error e => Except.error e
                    | Except.ok topdevs =>
                      match topdevs.mapM (fun d => pyGet d "name") with
                      | Except.error e => Except.error e
                      | Except.ok devNames => Except.ok (cands ++ devNames)

/-- Lines 106-109 of common.py: scan the candidates in order and return
the first normalized (truthy) one. -/
def firstNormalized : List PyVal → Option String
  | [] => Option.none
  | c :: cs =>
    match _normalize c with
    | some s => if s = "" then firstNormalized cs else some s
    | Option.none => firstNormalized cs

/-- resolve_rig_name from common.py.  A falsy rig yields Python None; a
truthy rig must be a mapping (any other truthy value raises when the
source first calls `.get` on it); the candidate list is built, scanned,
and the first normalized candidate is returned, `rig.get("rigId")`
otherwise. -/
def resolve_rig_name (rig : PyVal) : Except String PyVal :=
  if !rig.truthy then Except.ok PyVal.none
  else
    match rig with
    | PyVal.dict es =>
      match buildCandidates es with
      | Except.error e => Except.error e
      | Except.ok cands =>
        match firstNormalized cands with
        | some s => Except.ok (PyVal.str s)
        | Option.none => Except.ok (pyDictGet es "rigId")
    | _ => Except.error "AttributeError: object has no attribute get"

/-! Spec-side definitions.  The following definitions are written from the
wording of the specification (section 4.2), not from the source: they give
the candidate list and the per-candidate qualification test exactly as the
spec describes them, to be compared with the source embedding above. -/

/-- The safe probe the spec describes: reading a field of a location
yields the stored value on a mapping and null on anything else
(missing and non-mapping both degrade to null). -/
def specProbe (v : PyVal) (k : String) : PyVal :=
  match v with
  | PyVal.dict es => pyDictGet es k
  | _ => PyVal.none

/-- The entries of a sequence-valued field as the spec describes them:
a non-sequence location contributes no entries. -/
def specEntries (v : PyVal) (k : String) : List PyVal :=
  match specProbe v k with
  | PyVal.list xs => xs
  | _ => []

/-- The placeholder sentinels named by the spec. -/
def SENTINELS : List String := ["__DEFAULT__", "- UNMANAGED -", "UNMANAGED"]

/-- The per-candidate test exactly as the spec words it: a non-string is
skipped; a string is trimmed; an empty trimmed string is skipped; a
trimmed string whose case-insensitive value equals one of the sentinels
(equal once both are upper-cased) is skipped; otherwise the trimmed
string qualifies. -/
def specQualify (v : PyVal) : Option String :=
  match v with
  | PyVal.str s =>
    let t := pyStrip s
    if t = "" then Option.none
    else if ∃ p ∈ SENTINELS, pyUpper t = pyUpper p then Option.none
    else some t
  | _ => Option.none

/-- First qualifying candidate of a list, exactly as the spec words it:
candidates are tested in order and the first qualifying one is returned. -/
def firstQualifying : List PyVal → Option String
  | [] => Option.none
  | c :: cs =>
    match specQualify c with
    | some s => some s
    | Option.none => firstQualifying cs

/-- The ordered candidate list exactly as the spec words it: the seven
keys on the top-level rig, then on rig.metadata, then on rig.group
(skipped entirely when group is not a mapping), then rig.groupName a
second time, then rig.v4.mmv.workerName, then the value field of every
rig.v4.osv entry, then the name field of the dsv sub-mapping of every
rig.v4.devices entry, then the name field of every top-level rig.devices
entry. -/
def specCandidates (es : List (String × PyVal)) : List PyVal :=
  let rig := PyVal.dict es
  (keys.map (fun k => specProbe rig k))
  ++ (keys.map (fun k => specProbe (specProbe rig "metadata") k))
  ++ (match specProbe rig "group" with
      | PyVal.dict ges => keys.map (fun k => pyDictGet ges k)
      | _ => [])
  ++ [specProbe rig "groupName"]
  ++ [specProbe (specProbe (specProbe rig "v4") "mmv") "workerName"]
  ++ ((specEntries (specProbe rig "v4") "osv").map (fun ov => specProbe ov "value"))
  ++ ((specEntries (specProbe rig "v4") "devices").map
        (fun d => specProbe (specProbe d "dsv") "name"))
  ++ ((specEntries rig "devices").map (fun d => specProbe d "name"))

/-! Well-formedness.  resolve_rig_name is not total on arbitrary
RigRecord-shaped values: a truthy non-mapping at metadata, v4, mmv or dsv,
a non-sequence-of-mappings at osv or v4.devices, and a null or other
non-sequence-of-mappings top-level devices entry all make the source
raise.  The predicate below carves out the shapes on which the source is
total; it is the hypothesis of the amended resolver claims. -/

/-- True exactly on dict values. -/
def isDictV : PyVal → Bool
  | PyVal.dict _ => true
  | _ => false

/-- A location that the source normalizes with `or {}` before calling
`.get` on it is safe when it is a mapping or falsy. -/
def dictOrFalsy (v : PyVal) : Bool := isDictV v || !v.truthy

/-- A sequence-valued location whose entries are read with `.get` is safe
when it is a list of mappings or falsy. -/
def seqOfDictsOrFalsy (v : PyVal) : Bool :=
  match v with
  | PyVal.list xs => xs.all isDictV
  | v => !v.truthy

/-- A v4.devices entry is safe when it is a mapping whose dsv field is a
mapping or falsy. -/
def v4DevEntryWF : PyVal → Bool
  | PyVal.dict des => dictOrFalsy (pyDictGet des "dsv")
  | _ => false

/-- The v4 devices section is safe when it is a list of safe entries or
falsy. -/
def v4DevicesWF (v : PyVal) : Bool :=
  match v with
  | PyVal.list xs => xs.all v4DevEntryWF
  | v => !v.truthy

/-- The v4 section is safe when it is a mapping or falsy and its mmv, osv
and devices fields are safe. -/
def v4SectionWF (v4v : PyVal) : Bool :=
  match pyOr v4v (PyVal.dict []) with
  | PyVal.dict ves =>
    dictOrFalsy (pyDictGet ves "mmv")
    && seqOfDictsOrFalsy (pyDictGet ves "osv")
    && v4DevicesWF (pyDictGet ves "devices")
  | _ => false

/-- The top-level devices entry is safe when it is absent or a list of
mappings (the source reads it with `.get("devices", [])`, so an explicit
null is NOT safe). -/
def topDevicesWF (es : List (String × PyVal)) : Bool :=
  match pyDictGetD es "devices" (PyVal.list []) with
  | PyVal.list xs => xs.all isDictV
  | _ => false

/-- Well-formed rigs: falsy values (on which the source returns
immediately), and mappings whose metadata, v4 section and top-level
devices entry are safe.  The group field may be arbitrary: the source
guards it with isinstance. -/
def RigWF (rig : PyVal) : Bool :=
  match rig with
  | PyVal.dict es =>
    dictOrFalsy (pyDictGet es "metadata")
    && v4SectionWF (pyDictGet es "v4")
    && topDevicesWF es
  | v => !v.truthy

/-- Entry list of a list value, and the empty list on anything else. -/
def listEntries : PyVal → List PyVal
  | PyVal.list xs => xs
  | _ => []

/-- The candidate list the source computes, written as a pure function of
the rig entries.  On well-formed rigs, buildCandidates is proved to
return exactly this list (buildCandidates_wf below). -/
def pureCandidates (es : List (String × PyVal)) : List PyVal :=
  let metadata := pyOr (pyDictGet es "metadata") (PyVal.dict [])
  let group := pyOr (pyDictGet es "group") (PyVal.dict [])
  let v4 := pyOr (pyDictGet es "v4") (PyVal.dict [])
  let mmv := pyOr (specProbe v4 "mmv") (PyVal.dict [])
  (keys.map (fun k => pyDictGet es k))
  ++ (keys.map (fun k => specProbe metadata k))
  ++ (match group with
      | PyVal.dict ges => keys.map (fun k => pyDictGet ges k)
      | _ => [])
  ++ [pyDictGet es "groupName"]
  ++ [specProbe mmv "workerName"]
  ++ ((listEntries (pyOr (specProbe v4 "osv") (PyVal.list []))).map
        (fun ov => specProbe ov "value"))
  ++ ((listEntries (pyOr (specProbe v4 "devices") (PyVal.list []))).map
        (fun d => specProbe (pyOr (specProbe d "dsv") (PyVal.dict [])) "name"))
  ++ ((listEntries (pyDictGetD es "devices" (PyVal.list []))).map
        (fun d => specProbe d "name"))

theorem truthy_str_false {s : String} (h : (PyVal.str s).truthy = false) : s = "" := by
  simp [PyVal.truthy] at h
  exact h

theorem truthy_dict_false {es : List (String × PyVal)} (h : (PyVal.dict es).truthy = false) :
    es = [] := by
  simp [PyVal.truthy, List.isEmpty_iff] at h
  exact h

theorem truthy_list_false {xs : List PyVal} (h : (PyVal.list xs).truthy = false) : xs = [] := by
  simp [PyVal.truthy, List.isEmpty_iff] at h
  exact h

theorem pyDictGet_nil (k : String) : pyDictGet [] k = PyVal.none := rfl

theorem pyOr_dict_of_dictOrFalsy {v : PyVal} (h : dictOrFalsy v = true) :
    ∃ ws, pyOr v (PyVal.dict []) = PyVal.dict ws := by
  unfold pyOr
  cases v with
  | dict es =>
    by_cases ht : PyVal.truthy (PyVal.dict es) = true
    · exact ⟨es, by simp [ht]⟩
    · exact ⟨[], by simp [ht]⟩
  | none => exact ⟨[], by simp [PyVal.truthy]⟩
  | str s =>
    simp [dictOrFalsy, isDictV, Bool.not_eq_true] at h
    rw [truthy_str_false h]
    exact ⟨[], by simp [PyVal.truthy]⟩
  | list xs =>
    simp [dictOrFalsy, isDictV, Bool.not_eq_true] at h
    rw [truthy_list_false h]
    exact ⟨[], by simp [PyVal.truthy]⟩

theorem specProbe_pyOr_dict {v : PyVal} (h : dictOrFalsy v = true) (k : String) :
    specProbe (pyOr v (PyVal.dict [])) k = specProbe v k := by
  unfold pyOr
  cases v with
  | dict es =>
    cases htv : PyVal.truthy (PyVal.dict es) with
    | true => simp [htv]
    | false => have hsub := truthy_dict_false htv; subst hsub; simp [PyVal.truthy]
  | none => simp [PyVal.truthy, specProbe, pyDictGet, dictFind]
  | str s =>
    simp [dictOrFalsy, isDictV, Bool.not_eq_true] at h
    have hsub := truthy_str_false h; subst hsub
    simp [PyVal.truthy, specProbe, pyDictGet, dictFind]
  | list xs =>
    simp [dictOrFalsy, isDictV, Bool.not_eq_true] at h
    have hsub := truthy_list_false h; subst hsub
    simp [PyVal.truthy, specProbe, pyDictGet, dictFind]

theorem listEntries_pyOr (v : PyVal) :
    listEntries (pyOr v (PyVal.list [])) = listEntries v := by
  unfold pyOr
  cases v with
  | list xs =>
    cases htv : PyVal.truthy (PyVal.list xs) with
    | true => simp [htv]
    | false => have hsub := truthy_list_false htv; subst hsub; simp [PyVal.truthy]
  | none => simp [PyVal.truthy, listEntries]
  | str s =>
    cases htv : PyVal.truthy (PyVal.str s) with
    | true => simp [htv, listEntries]
    | false => have hsub := truthy_str_false htv; subst hsub; simp [PyVal.truthy, listEntries]
  | dict es =>
    cases htv : PyVal.truthy (PyVal.dict es) with
    | true => simp [htv, listEntries]
    | false => have hsub := truthy_dict_false htv; subst hsub; simp [PyVal.truthy, listEntries]

theorem pyGet_dict (es : List (String × PyVal)) (k : String) :
    pyGet (PyVal.dict es) k = Except.ok (pyDictGet es k) := rfl

theorem isDictV_eq {v : PyVal} (h : isDictV v = true) : ∃ ds, v = PyVal.dict ds := by
  cases v with
  | dict ds => exact ⟨ds, rfl⟩
  | none => simp [isDictV] at h
  | str s => simp [isDictV] at h
  | list xs => simp [isDictV] at h

theorem pyGet_pyOr_of_dictOrFalsy {v : PyVal} (h : dictOrFalsy v = true) (k : String) :
    pyGet (pyOr v (PyVal.dict [])) k = Except.ok (specProbe (pyOr v (PyVal.dict [])) k) := by
  obtain ⟨ws, hws⟩ := pyOr_dict_of_dictOrFalsy h
  rw [hws]
  rfl

theorem mapM_pyGet_keys (ws : List (String × PyVal)) (ks : List String) :
    ks.mapM (fun k => pyGet (PyVal.dict ws) k)
      = Except.ok (ks.map (fun k => pyDictGet ws k)) := by
  induction ks with
  | nil => rfl
  | cons k ks ih =>
    rw [List.mapM_cons, List.map_cons]
    rw [pyGet_dict, ih]
    rfl

theorem mapM_pyGet_of_all_dicts {xs : List PyVal} (h : xs.all isDictV = true) (k : String) :
    xs.mapM (fun v => pyGet v k) = Except.ok (xs.map (fun v => specProbe v k)) := by
  induction xs with
  | nil => rfl
  | cons x xs ih =>
    simp only [List.all_cons, Bool.and_eq_true] at h
    obtain ⟨hx, hxs⟩ := h
    obtain ⟨ds, hds⟩ := isDictV_eq hx
    subst hds
    rw [List.mapM_cons, List.map_cons]
    rw [pyGet_dict, ih hxs]
    rfl

/-- A list value or a falsy value: the shapes v that make
`pyOr v (PyVal.list [])` iterate without raising, yielding the entries. -/
def listOrFalsy (v : PyVal) : Bool :=
  match v with
  | PyVal.list _ => true
  | v => !v.truthy

theorem seqOfDictsOrFalsy_listOrFalsy {v : PyVal} (h : seqOfDictsOrFalsy v = true) :
    listOrFalsy v = true := by
  cases v with
  | list xs => rfl
  | none => rfl
  | str s => simpa [seqOfDictsOrFalsy, listOrFalsy] using h
  | dict es => simpa [seqOfDictsOrFalsy, listOrFalsy] using h

theorem v4DevicesWF_listOrFalsy {v : PyVal} (h : v4DevicesWF v = true) :
    listOrFalsy v = true := by
  cases v with
  | list xs => rfl
  | none => rfl
  | str s => simpa [v4DevicesWF, listOrFalsy] using h
  | dict es => simpa [v4DevicesWF, listOrFalsy] using h

theorem pyIter_pyOr_of_listOrFalsy {v : PyVal} (h : listOrFalsy v = true) :
    pyIter (pyOr v (PyVal.list [])) = Except.ok (listEntries v) := by
  unfold pyOr
  cases v with
  | list xs =>
    cases htv : PyVal.truthy (PyVal.list xs) with
    | true => simp [htv, pyIter, listEntries]
    | false => have hsub := truthy_list_false htv; subst hsub; simp [PyVal.truthy, pyIter, listEntries]
  | none => simp [PyVal.truthy, pyIter, listEntries]
  | str s =>
    simp only [listOrFalsy, Bool.not_eq_true'] at h
    have hsub := truthy_str_false h
    subst hsub
    simp [PyVal.truthy, pyIter, listEntries]
  | dict es =>
    simp only [listOrFalsy, Bool.not_eq_true'] at h
    have hsub := truthy_dict_false h
    subst hsub
    simp [PyVal.truthy, pyIter, listEntries]

theorem listEntries_all_of_seq {v : PyVal} (h : seqOfDictsOrFalsy v = true) :
    (listEntries v).all isDictV = true := by
  cases v with
  | list xs => exact h
  | none => rfl
  | str s => rfl
  | dict es => rfl

theorem listEntries_all_of_v4devs {v : PyVal} (h : v4DevicesWF v = true) :
    (listEntries v).all v4DevEntryWF = true := by
  cases v with
  | list xs => exact h
  | none => rfl
  | str s => rfl
  | dict es => rfl

theorem mapM_dsv_of_wf {xs : List PyVal} (h : xs.all v4DevEntryWF = true) :
    xs.mapM (fun d =>
        match pyGet d "dsv" with
        | Except.error e => Except.error e
        | Except.ok dsv0 => pyGet (pyOr dsv0 (PyVal.dict [])) "name")
      = Except.ok (xs.map
          (fun d => specProbe (pyOr (specProbe d "dsv") (PyVal.dict [])) "name")) := by
  induction xs with
  | nil => rfl
  | cons x xs ih =>
    simp only [List.all_cons, Bool.and_eq_true] at h
    obtain ⟨hx, hxs⟩ := h
    cases x with
    | dict des =>
      simp only [v4DevEntryWF] at hx
      rw [List.mapM_cons, List.map_cons]
      rw [pyGet_dict]
      have hname := pyGet_pyOr_of_dictOrFalsy hx "name"
      simp only [hname]
      rw [ih hxs]
      rfl
    | none => simp [v4DevEntryWF] at hx
    | str s => simp [v4DevEntryWF] at hx
    | list ys => simp [v4DevEntryWF] at hx

theorem topDevicesWF_eq {es : List (String × PyVal)} (h : topDevicesWF es = true) :
    ∃ xs, pyDictGetD es "devices" (PyVal.list []) = PyVal.list xs ∧ xs.all isDictV = true := by
  unfold topDevicesWF at h
  cases hd : pyDictGetD es "devices" (PyVal.list []) with
  | list xs => exact ⟨xs, rfl, by rw [hd] at h; exact h⟩
  | none => rw [hd] at h; simp at h
  | str s => rw [hd] at h; simp at h
  | dict ds => rw [hd] at h; simp at h

theorem pyIter_list (xs : List PyVal) : pyIter (PyVal.list xs) = Except.ok xs := rfl

theorem listEntries_list (xs : List PyVal) : listEntries (PyVal.list xs) = xs := rfl

theorem specProbe_dict (ds : List (String × PyVal)) (k : String) :
    specProbe (PyVal.dict ds) k = pyDictGet ds k := rfl

theorem buildCandidates_wf (es : List (String × PyVal)) (h : RigWF (PyVal.dict es) = true) :
    buildCandidates es = Except.ok (pureCandidates es) := by
  unfold RigWF at h
  simp only [Bool.and_eq_true] at h
  obtain ⟨⟨hmd, hv4⟩, hdev⟩ := h
  unfold v4SectionWF at hv4
  cases hveq : pyOr (pyDictGet es "v4") (PyVal.dict []) with
  | none => rw [hveq] at hv4; simp at hv4
  | str s => rw [hveq] at hv4; simp at hv4
  | list xs => rw [hveq] at hv4; simp at hv4
  | dict ves =>
    rw [hveq] at hv4
    simp only [Bool.and_eq_true] at hv4
    obtain ⟨⟨hmmv, hosv⟩, hv4devs⟩ := hv4
    obtain ⟨mes, hmes⟩ := pyOr_dict_of_dictOrFalsy hmd
    obtain ⟨txs, htx, htall⟩ := topDevicesWF_eq hdev
    simp only [buildCandidates, pureCandidates, hveq, hmes, htx,
      pyGet_dict ves "mmv", pyGet_dict ves "osv", pyGet_dict ves "devices",
      mapM_pyGet_keys, pyGet_pyOr_of_dictOrFalsy hmmv,
      pyIter_pyOr_of_listOrFalsy (seqOfDictsOrFalsy_listOrFalsy hosv),
      mapM_pyGet_of_all_dicts (listEntries_all_of_seq hosv),
      pyIter_pyOr_of_listOrFalsy (v4DevicesWF_listOrFalsy hv4devs),
      mapM_dsv_of_wf (listEntries_all_of_v4devs hv4devs),
      pyIter_list, mapM_pyGet_of_all_dicts htall,
      listEntries_pyOr, listEntries_list, specProbe_dict, List.append_assoc]

theorem mem_tokens_iff (u : String) :
    (pyUpper u ∈ placeholder_tokens) ↔ ∃ p ∈ SENTINELS, pyUpper u = pyUpper p := by
  unfold placeholder_tokens
  constructor
  · intro h
    obtain ⟨p, hp, hpe⟩ := List.mem_map.mp h
    exact ⟨p, hp, hpe.symm⟩
  · intro h
    obtain ⟨p, hp, hpe⟩ := h
    exact List.mem_map.mpr ⟨p, hp, hpe.symm⟩

theorem normalize_eq_specQualify (v : PyVal) : _normalize v = specQualify v := by
  cases v with
  | str s =>
    simp only [_normalize, specQualify]
    by_cases he : pyStrip s = ""
    · simp [he]
    · simp only [he, if_false]
      by_cases hm : pyUpper (pyStrip s) ∈ placeholder_tokens
      · simp [hm, (mem_tokens_iff (pyStrip s)).mp hm]
      · have hm2 : ¬ ∃ p ∈ SENTINELS, pyUpper (pyStrip s) = pyUpper p :=
          fun hc => hm ((mem_tokens_iff (pyStrip s)).mpr hc)
        simp [hm, hm2]
  | none => rfl
  | dict es => rfl
  | list xs => rfl

theorem specQualify_ne_empty {v : PyVal} {s : String} (h : specQualify v = some s) :
    s ≠ "" := by
  cases v with
  | str t =>
    simp only [specQualify] at h
    by_cases he : pyStrip t = ""
    · simp [he] at h
    · by_cases hp : ∃ p ∈ SENTINELS, pyUpper (pyStrip t) = pyUpper p
      · simp [he, hp] at h
      · simp [he, hp] at h
        rw [← h]
        exact he
  | none => simp [specQualify] at h
  | dict es => simp [specQualify] at h
  | list xs => simp [specQualify] at h

theorem firstNormalized_eq_firstQualifying (cs : List PyVal) :
    firstNormalized cs = firstQualifying cs := by
  induction cs with
  | nil => rfl
  | cons c cs ih =>
    simp only [firstNormalized, firstQualifying, normalize_eq_specQualify]
    cases hq : specQualify c with
    | none => exact ih
    | some s => simp [specQualify_ne_empty hq]

theorem firstQualifying_append (xs ys : List PyVal) :
    firstQualifying (xs ++ ys) = (firstQualifying xs).or (firstQualifying ys) := by
  induction xs with
  | nil => simp [firstQualifying]
  | cons x xs ih =>
    simp only [List.cons_append, firstQualifying]
    cases specQualify x with
    | some s => simp
    | none => exact ih

theorem dictOrFalsy_of_pyOr_dict {v : PyVal} {ws : List (String × PyVal)}
    (h : pyOr v (PyVal.dict []) = PyVal.dict ws) : dictOrFalsy v = true := by
  cases v with
  | dict es => rfl
  | none => rfl
  | str s =>
    unfold pyOr at h
    cases htv : PyVal.truthy (PyVal.str s) with
    | true => rw [htv] at h; simp at h
    | false => simp [dictOrFalsy, htv]
  | list xs =>
    unfold pyOr at h
    cases htv : PyVal.truthy (PyVal.list xs) with
    | true => rw [htv] at h; simp at h
    | false => simp [dictOrFalsy, htv]

theorem pyOr_dict_dict (ges : List (String × PyVal)) :
    pyOr (PyVal.dict ges) (PyVal.dict []) = PyVal.dict ges := by
  unfold pyOr
  cases htv : PyVal.truthy (PyVal.dict ges) with
  | true => simp [htv]
  | false => have hsub := truthy_dict_false htv; subst hsub; simp

theorem listEntriesD_eq (es : List (String × PyVal)) (k : String) :
    listEntries (pyDictGetD es k (PyVal.list [])) = listEntries (pyDictGet es k) := by
  unfold pyDictGetD pyDictGet
  cases dictFind es k with
  | none => rfl
  | some v => rfl

theorem specEntries_eq (v : PyVal) (k : String) :
    specEntries v k = listEntries (specProbe v k) := rfl

theorem fq_group_nones :
    firstQualifying (keys.map (fun k => pyDictGet [] k)) = Option.none := rfl

theorem fq_pure_eq_spec (es : List (String × PyVal)) (h : RigWF (PyVal.dict es) = true) :
    firstQualifying (pureCandidates es) = firstQualifying (specCandidates es) := by
  unfold RigWF at h
  simp only [Bool.and_eq_true] at h
  obtain ⟨⟨hmd, hv4⟩, hdev⟩ := h
  unfold v4SectionWF at hv4
  cases hveq : pyOr (pyDictGet es "v4") (PyVal.dict []) with
  | none => rw [hveq] at hv4; simp at hv4
  | str s => rw [hveq] at hv4; simp at hv4
  | list xs => rw [hveq] at hv4; simp at hv4
  | dict ves =>
    rw [hveq] at hv4
    simp only [Bool.and_eq_true] at hv4
    obtain ⟨⟨hmmv, hosv⟩, hv4devs⟩ := hv4
    have hv4df := dictOrFalsy_of_pyOr_dict hveq
    have hspec4 : ∀ k : String, specProbe (pyDictGet es "v4") k = pyDictGet ves k := by
      intro k
      rw [← specProbe_pyOr_dict hv4df k, hveq, specProbe_dict]
    have hG : firstQualifying (match pyOr (pyDictGet es "group") (PyVal.dict []) with
          | PyVal.dict ges => keys.map (fun k => pyDictGet ges k)
          | _ => [])
        = firstQualifying (match pyDictGet es "group" with
          | PyVal.dict ges => keys.map (fun k => pyDictGet ges k)
          | _ => []) := by
      cases hg : pyDictGet es "group" with
      | dict ges => rw [pyOr_dict_dict]
      | none => decide
      | str s =>
        cases hts : (PyVal.str s).truthy with
        | true => simp [pyOr, hts]
        | false =>
          have hsub := truthy_str_false hts
          subst hsub
          decide
      | list xs =>
        cases hts : (PyVal.list xs).truthy with
        | true => simp [pyOr, hts]
        | false =>
          have hsub := truthy_list_false hts
          subst hsub
          decide
    have hdsv : (listEntries (pyDictGet ves "devices")).map
          (fun d => specProbe (pyOr (specProbe d "dsv") (PyVal.dict [])) "name")
        = (listEntries (pyDictGet ves "devices")).map
          (fun d => specProbe (specProbe d "dsv") "name") := by
      apply List.map_congr_left
      intro d hd
      have hwf : v4DevEntryWF d = true :=
        List.all_eq_true.mp (listEntries_all_of_v4devs hv4devs) d hd
      cases d with
      | dict des =>
        simp only [v4DevEntryWF] at hwf
        simp only [specProbe_dict]
        exact specProbe_pyOr_dict hwf "name"
      | none => simp [v4DevEntryWF] at hwf
      | str s => simp [v4DevEntryWF] at hwf
      | list xs => simp [v4DevEntryWF] at hwf
    simp only [pureCandidates, specCandidates, specEntries_eq, specProbe_dict,
      listEntriesD_eq, listEntries_pyOr, hveq, hspec4,
      specProbe_pyOr_dict hmd, specProbe_pyOr_dict hmmv, hdsv,
      List.append_assoc, firstQualifying_append]
    rw [hG]

theorem resolve_wf_dict (es : List (String × PyVal)) (h : RigWF (PyVal.dict es) = true)
    (ht : (PyVal.dict es).truthy = true) :
    resolve_rig_name (PyVal.dict es)
      = Except.ok (match firstQualifying (specCandidates es) with
          | some s => PyVal.str s
          | Option.none => pyDictGet es "rigId") := by
  unfold resolve_rig_name
  simp only [ht, Bool.not_true, Bool.false_eq_true, if_false]
  simp only [buildCandidates_wf es h]
  simp only [firstNormalized_eq_firstQualifying, fq_pure_eq_spec es h]
  cases firstQualifying (specCandidates es) with
  | some s => rfl
  | none => rfl

/-- C1 (amended): resolve_rig_name never raises on any rig that is falsy
or a mapping whose metadata, v4 (with its mmv, osv, devices sub-fields
and dsv sub-mappings) and top-level devices sections are well-shaped, as
captured by RigWF; on such inputs missing data degrades to skipping and
the result is a qualifying name, the stored rigId, or null. -/
theorem resolver_total_on_wellformed (rig : PyVal) (h : RigWF rig = true) :
    (resolve_rig_name rig).isOk = true := by
  cases htv : rig.truthy with
  | false => unfold resolve_rig_name; rw [htv]; rfl
  | true =>
    cases rig with
    | dict es => rw [resolve_wf_dict es h htv]; rfl
    | none => simp [PyVal.truthy] at htv
    | str s => simp [RigWF, htv] at h
    | list xs => simp [RigWF, htv] at h

/-- C1 witness: a concrete well-formed rig on which the amended totality
theorem applies. -/
theorem resolver_total_on_wellformed_witness :
    RigWF (PyVal.dict [("rigId", PyVal.str "abc123")]) = true
    ∧ (resolve_rig_name (PyVal.dict [("rigId", PyVal.str "abc123")])).isOk = true :=
  ⟨by decide, resolver_total_on_wellformed _ (by decide)⟩

/-- C1 counterexample: the RigRecord-shaped input with an explicit null
devices entry makes the source raise (Python iterates None), so the
resolver is NOT total on every RigRecord-shaped input as the claim
states. -/
theorem resolver_raises_on_null_devices :
    (resolve_rig_name (PyVal.dict [("devices", PyVal.none)])).isOk = false := rfl

/-- C2 (amended): for every non-null well-formed rig mapping, the
resolver returns exactly the first qualifying candidate of the ordered
candidate list the spec describes (top-level keys, metadata keys, group
keys when group is a mapping, groupName again, v4.mmv.workerName, osv
values, v4 device dsv names, top-level device names), whenever one
exists. -/
theorem resolver_probe_order (es : List (String × PyVal))
    (hwf : RigWF (PyVal.dict es) = true)
    (ht : (PyVal.dict es).truthy = true)
    (s : String) (hq : firstQualifying (specCandidates es) = some s) :
    resolve_rig_name (PyVal.dict es) = Except.ok (PyVal.str s) := by
  rw [resolve_wf_dict es hwf ht, hq]

/-- C2 witness: the top-level name wins over the metadata name and is
trimmed. -/
theorem resolver_probe_order_witness :
    resolve_rig_name (PyVal.dict [("name", PyVal.str "  GPU-Rig-1  "),
        ("metadata", PyVal.dict [("name", PyVal.str "fallback")])])
      = Except.ok (PyVal.str "GPU-Rig-1") :=
  resolver_probe_order _ (by decide) (by decide) _ (by decide)

/-- C2 counterexample: on the non-null rig mapping with name GoodRig and
a string-valued metadata entry, the first qualifying candidate per the
claimed order is GoodRig, but the source raises instead of returning it. -/
theorem resolver_probe_order_cex :
    firstQualifying (specCandidates
        [("name", PyVal.str "GoodRig"), ("metadata", PyVal.str "x")]) = some "GoodRig"
    ∧ (resolve_rig_name (PyVal.dict
        [("name", PyVal.str "GoodRig"), ("metadata", PyVal.str "x")])).isOk = false :=
  ⟨by decide, rfl⟩

/-- C3: the per-candidate filtering of the source matches the spec
exactly: the normalization helper agrees with the spec test on every
candidate (non-strings skipped, strings trimmed, empty and placeholder
strings skipped case-insensitively, otherwise the trimmed string kept);
the scan equals first-qualifying-wins; a qualifying candidate is
returned immediately; a non-qualifying one is skipped. -/
theorem candidate_filtering_matches_spec :
    (∀ v, _normalize v = specQualify v)
    ∧ (∀ cs, firstNormalized cs = firstQualifying cs)
    ∧ (∀ c cs s, specQualify c = some s → firstNormalized (c :: cs) = some s)
    ∧ (∀ c cs, specQualify c = Option.none → firstNormalized (c :: cs) = firstNormalized cs) := by
  refine ⟨normalize_eq_specQualify, firstNormalized_eq_firstQualifying, ?_, ?_⟩
  · intro c cs s hq
    simp only [firstNormalized, normalize_eq_specQualify, hq]
    simp [specQualify_ne_empty hq]
  · intro c cs hq
    simp only [firstNormalized, normalize_eq_specQualify, hq]

/-- C3 witness: a qualifying candidate is returned immediately, trimmed,
before a later placeholder is even looked at. -/
theorem candidate_filtering_matches_spec_witness :
    firstNormalized [PyVal.str " Worker7 ", PyVal.str "UNMANAGED"] = some "Worker7" :=
  candidate_filtering_matches_spec.2.2.1 _ _ _ (by decide)

/-- C6 (amended): for every non-null well-formed rig mapping in which no
candidate qualifies, the resolver returns the stored rigId untrimmed and
unfiltered, and null when the key is absent. -/
theorem resolver_rigid_fallback (es : List (String × PyVal))
    (hwf : RigWF (PyVal.dict es) = true)
    (ht : (PyVal.dict es).truthy = true)
    (hq : firstQualifying (specCandidates es) = Option.none) :
    resolve_rig_name (PyVal.dict es) = Except.ok (pyDictGet es "rigId") := by
  rw [resolve_wf_dict es hwf ht, hq]

/-- C6 witness: a placeholder name is skipped and the rigId comes back
exactly as stored, untrimmed. -/
theorem resolver_rigid_fallback_witness :
    resolve_rig_name (PyVal.dict [("name", PyVal.str "__default__"),
        ("rigId", PyVal.str "  abc123  ")])
      = Except.ok (PyVal.str "  abc123  ") :=
  resolver_rigid_fallback _ (by decide) (by decide) (by decide)

/-- C6 counterexample: on the rig mapping with a string-valued metadata
entry and rigId abc, no candidate qualifies, yet the source raises
instead of returning abc. -/
theorem resolver_rigid_fallback_cex :
    firstQualifying (specCandidates
        [("metadata", PyVal.str "x"), ("rigId", PyVal.str "abc")]) = Option.none
    ∧ (resolve_rig_name (PyVal.dict
        [("metadata", PyVal.str "x"), ("rigId", PyVal.str "abc")])).isOk = false :=
  ⟨by decide, rfl⟩

/-- C7: resolve_rig_name is a pure function: identical input always
yields identical output across any two invocations. -/
theorem resolver_deterministic (rig : PyVal) :
    resolve_rig_name rig = resolve_rig_name rig := rfl

/-- C8: on null input the resolver immediately returns null, without
raising. -/
theorem resolver_null_input : resolve_rig_name PyVal.none = Except.ok PyVal.none := rfl

/-! The coordinator.  NiceHashSensorDataUpdateCoordinator._async_update_data
runs both fetches inside `async_timeout.timeout(10)` and wraps every
exception (including the timeout) into UpdateFailed.  Await durations are
measured in the abstract time units of the timeout window; the window
elapsing during an await makes that await raise the timeout error. -/

/-- The timeout constant of async_timeout.timeout(10) in
_async_update_data. -/
def REFRESH_TIMEOUT : Nat := 10

/-- A Python exception as observed by the handler: its class and its
str() description. -/
structure PyExc where
  cls : String
  text : String
deriving DecidableEq

/-- The timeout error raised by async_timeout when the window elapses;
its str() is empty. -/
def timeoutExc : PyExc := ⟨"TimeoutError", ""⟩

/-- The UpdateFailed error raised by _async_update_data: a message and
the chained original cause (raise UpdateFailed(...) from err). -/
structure UpdateFailed where
  message : String
  cause : PyExc
deriving DecidableEq

/-- Line 53 of common.py: wrap an exception into UpdateFailed with the
fixed message template, chaining the original cause. -/
def wrapUpdateFailed (e : PyExc) : UpdateFailed :=
  ⟨"Error communicating with API: " ++ e.text, e⟩

/-- Modelled from the spec: the snapshot key constants RIGS_OBJ and
ACCOUNT_OBJ live in const.py, which is not under src; the spec fixes the
stable snapshot keys as rigs and account. -/
def RIGS_OBJ : String := "rigs"

/-- Modelled from the spec: see RIGS_OBJ. -/
def ACCOUNT_OBJ : String := "account"

/-- A snapshot is the dict the update method returns:
RIGS_OBJ mapped to the rigs result and ACCOUNT_OBJ to the account result. -/
abbrev Snapshot := List (String × PyVal)

/-- Modelled from the spec (and the Python stdlib): timedelta with a
minutes argument, held as total seconds. -/
structure Timedelta where
  seconds : Int
deriving DecidableEq

/-- Python timedelta(minutes=m). -/
def timedelta_minutes (m : Int) : Timedelta := ⟨60 * m⟩

/-- The configuration the constructor of
NiceHashSensorDataUpdateCoordinator stores: the update interval passed to
the base class and the fiat currency kept in self._fiat. -/
structure CoordinatorConfig where
  update_interval : Timedelta
  fiat : String
deriving DecidableEq

/-- Lines 26-42 of common.py: the constructor takes an integer update
interval (in minutes) and an optional fiat currency; a missing fiat
argument defaults to USD. -/
def coordinator_init (update_interval : Int) (fiat : Option String) : CoordinatorConfig :=
  ⟨timedelta_minutes update_interval, fiat.getD "USD"⟩

/-- One observable API call of a refresh: get_rigs_data, or
get_account_data with the fiat argument it was invoked with. -/
inductive ApiCall where
  | getRigsData : ApiCall
  | getAccountData : String → ApiCall
deriving DecidableEq

/-- Behaviour of one awaited fetch: the value it returns or the exception
it raises, and how many time units the await takes. -/
structure FetchBehavior where
  result : Except PyExc PyVal
  duration : Nat

/-- Lines 44-53 of common.py, _async_update_data: await get_rigs_data(),
then await get_account_data(self._fiat), both inside the 10-unit timeout
window, returning the snapshot dict on success; every exception and the
timeout are wrapped into UpdateFailed.  The first component lists the API
calls that were started, in order. -/
def async_update_data (cfg : CoordinatorConfig) (rigsF : FetchBehavior)
    (accountF : String → FetchBehavior) :
    List ApiCall × Except UpdateFailed Snapshot :=
  if REFRESH_TIMEOUT < rigsF.duration then
    ([ApiCall.getRigsData], Except.error (wrapUpdateFailed timeoutExc))
  else
    match rigsF.result with
    | Except.error e => ([ApiCall.getRigsData], Except.error (wrapUpdateFailed e))
    | Except.ok rigs =>
      let acct := accountF cfg.fiat
      if REFRESH_TIMEOUT < rigsF.duration + acct.duration then
        ([ApiCall.getRigsData, ApiCall.getAccountData cfg.fiat],
          Except.error (wrapUpdateFailed timeoutExc))
      else
        match acct.result with
        | Except.error e =>
          ([ApiCall.getRigsData, ApiCall.getAccountData cfg.fiat],
            Except.error (wrapUpdateFailed e))
        | Except.ok account =>
          ([ApiCall.getRigsData, ApiCall.getAccountData cfg.fiat],
            Except.ok [(RIGS_OBJ, rigs), (ACCOUNT_OBJ, account)])

/-- Modelled from the spec: the snapshot storage of the homeassistant
DataUpdateCoordinator base class (not under src).  A successful refresh
stores the returned data as the new snapshot; a failed refresh leaves the
previous snapshot untouched. -/
def coordinatorStep (prev : Option Snapshot) (cfg : CoordinatorConfig)
    (rigsF : FetchBehavior) (accountF : String → FetchBehavior) :
    Option Snapshot × Except UpdateFailed Snapshot :=
  match (async_update_data cfg rigsF accountF).snd with
  | Except.ok snap => (some snap, Except.ok snap)
  | Except.error e => (prev, Except.error e)

theorem refresh_cases (cfg : CoordinatorConfig) (rigsF : FetchBehavior)
    (accountF : String → FetchBehavior) :
    (∃ snap, (async_update_data cfg rigsF accountF).snd = Except.ok snap)
    ∨ (∃ e, (async_update_data cfg rigsF accountF).snd
          = Except.error (wrapUpdateFailed e)
        ∧ (e = timeoutExc ∨ rigsF.result = Except.error e
            ∨ (accountF cfg.fiat).result = Except.error e)) := by
  by_cases h1 : REFRESH_TIMEOUT < rigsF.duration
  · exact Or.inr ⟨timeoutExc, by simp [async_update_data, h1], Or.inl rfl⟩
  · cases hr : rigsF.result with
    | error e0 =>
      exact Or.inr ⟨e0, by simp [async_update_data, h1, hr], Or.inr (Or.inl rfl)⟩
    | ok rv =>
      by_cases h2 : REFRESH_TIMEOUT < rigsF.duration + (accountF cfg.fiat).duration
      · exact Or.inr ⟨timeoutExc, by simp [async_update_data, h1, hr, h2], Or.inl rfl⟩
      · cases ha : (accountF cfg.fiat).result with
        | error e1 =>
          exact Or.inr ⟨e1, by simp [async_update_data, h1, hr, h2, ha],
            Or.inr (Or.inr rfl)⟩
        | ok av =>
          exact Or.inl ⟨[(RIGS_OBJ, rv), (ACCOUNT_OBJ, av)],
            by simp [async_update_data, h1, hr, h2, ha]⟩

theorem refresh_error_shape (cfg : CoordinatorConfig) (rigsF : FetchBehavior)
    (accountF : String → FetchBehavior) (uf : UpdateFailed)
    (h : (async_update_data cfg rigsF accountF).snd = Except.error uf) :
    ∃ e, uf = wrapUpdateFailed e := by
  rcases refresh_cases cfg rigsF accountF with ⟨snap, hs⟩ | ⟨e, he, _⟩
  · rw [hs] at h
    exact absurd h (by simp)
  · rw [he] at h
    simp only [Except.error.injEq] at h
    exact ⟨e, h.symm⟩

/-- C4: the refresh produces either a snapshot or a single UpdateFailed;
every UpdateFailed carries the fixed message template around the original
error description and chains that error as its cause; the only possible
causes are the timeout of the 10-unit window or an exception of one of
the two fetches; and a raising fetch always fails the refresh (no other
error kind ever appears). -/
theorem refresh_single_error_kind (cfg : CoordinatorConfig) (rigsF : FetchBehavior)
    (accountF : String → FetchBehavior) :
    ((∃ snap, (async_update_data cfg rigsF accountF).snd = Except.ok snap)
      ∨ (∃ e, (async_update_data cfg rigsF accountF).snd
            = Except.error (wrapUpdateFailed e)
          ∧ (e = timeoutExc ∨ rigsF.result = Except.error e
              ∨ (accountF cfg.fiat).result = Except.error e)))
    ∧ (∀ uf, (async_update_data cfg rigsF accountF).snd = Except.error uf →
        ∃ e, uf.message = "Error communicating with API: " ++ e.text ∧ uf.cause = e)
    ∧ (∀ e, rigsF.result = Except.error e →
        ∃ uf, (async_update_data cfg rigsF accountF).snd = Except.error uf)
    ∧ (∀ e, (accountF cfg.fiat).result = Except.error e →
        ∃ uf, (async_update_data cfg rigsF accountF).snd = Except.error uf) := by
  refine ⟨refresh_cases cfg rigsF accountF, ?_, ?_, ?_⟩
  · intro uf h
    obtain ⟨e, he⟩ := refresh_error_shape cfg rigsF accountF uf h
    refine ⟨e, ?_, ?_⟩
    · rw [he]
      rfl
    · rw [he]
      rfl
  · intro e he
    by_cases h1 : REFRESH_TIMEOUT < rigsF.duration
    · exact ⟨wrapUpdateFailed timeoutExc, by simp [async_update_data, h1]⟩
    · exact ⟨wrapUpdateFailed e, by simp [async_update_data, h1, he]⟩
  · intro e he
    by_cases h1 : REFRESH_TIMEOUT < rigsF.duration
    · exact ⟨wrapUpdateFailed timeoutExc, by simp [async_update_data, h1]⟩
    · cases hr : rigsF.result with
      | error e0 => exact ⟨wrapUpdateFailed e0, by simp [async_update_data, h1, hr]⟩
      | ok rv =>
        by_cases h2 : REFRESH_TIMEOUT < rigsF.duration + (accountF cfg.fiat).duration
        · exact ⟨wrapUpdateFailed timeoutExc, by simp [async_update_data, h1, hr, h2]⟩
        · exact ⟨wrapUpdateFailed e, by simp [async_update_data, h1, hr, h2, he]⟩

/-- C4 witness: a concrete failing rigs fetch makes the refresh fail with
an UpdateFailed. -/
theorem refresh_single_error_kind_witness :
    ∃ uf, (async_update_data (coordinator_init 1 Option.none)
        ⟨Except.error ⟨"HomeAssistantError", "boom"⟩, 2⟩
        (fun _ => ⟨Except.ok PyVal.none, 2⟩)).snd = Except.error uf :=
  (refresh_single_error_kind _ _ _).2.2.1 ⟨"HomeAssistantError", "boom"⟩ rfl

/-- C5: when both fetches succeed within the timeout window, the refresh
returns the snapshot whose rigs entry is exactly the rigs fetch result
and whose account entry is exactly the account fetch result, and the
coordinator stores it, fully replacing any previous snapshot. -/
theorem refresh_success_snapshot (prev : Option Snapshot) (cfg : CoordinatorConfig)
    (rigsF : FetchBehavior) (accountF : String → FetchBehavior) (rv av : PyVal)
    (hr : rigsF.result = Except.ok rv)
    (ha : (accountF cfg.fiat).result = Except.ok av)
    (hd : rigsF.duration + (accountF cfg.fiat).duration ≤ REFRESH_TIMEOUT) :
    coordinatorStep prev cfg rigsF accountF
      = (some [(RIGS_OBJ, rv), (ACCOUNT_OBJ, av)],
          Except.ok [(RIGS_OBJ, rv), (ACCOUNT_OBJ, av)])
    ∧ pyDictGet [(RIGS_OBJ, rv), (ACCOUNT_OBJ, av)] RIGS_OBJ = rv
    ∧ pyDictGet [(RIGS_OBJ, rv), (ACCOUNT_OBJ, av)] ACCOUNT_OBJ = av := by
  have h1 : ¬ REFRESH_TIMEOUT < rigsF.duration := by
    unfold REFRESH_TIMEOUT at hd ⊢
    omega
  have h2 : ¬ REFRESH_TIMEOUT < rigsF.duration + (accountF cfg.fiat).duration := by
    unfold REFRESH_TIMEOUT at hd ⊢
    omega
  unfold coordinatorStep
  simp [async_update_data, h1, hr, h2, ha, pyDictGet, dictFind, RIGS_OBJ, ACCOUNT_OBJ]

/-- C5 witness: a concrete successful refresh replacing a previous
snapshot. -/
theorem refresh_success_snapshot_witness :
    coordinatorStep (some [("rigs", PyVal.str "old")]) (coordinator_init 3 (some "EUR"))
        ⟨Except.ok (PyVal.str "R"), 4⟩ (fun _ => ⟨Except.ok (PyVal.str "A"), 5⟩)
      = (some [(RIGS_OBJ, PyVal.str "R"), (ACCOUNT_OBJ, PyVal.str "A")],
          Except.ok [(RIGS_OBJ, PyVal.str "R"), (ACCOUNT_OBJ, PyVal.str "A")]) :=
  (refresh_success_snapshot _ _ _ _ _ _ rfl rfl (by decide)).1

theorem calls_account_arg (cfg : CoordinatorConfig) (rigsF : FetchBehavior)
    (accountF : String → FetchBehavior) (g : String)
    (hg : ApiCall.getAccountData g ∈ (async_update_data cfg rigsF accountF).fst) :
    g = cfg.fiat := by
  by_cases h1 : REFRESH_TIMEOUT < rigsF.duration
  · simp [async_update_data, h1] at hg
  · cases hr : rigsF.result with
    | error e0 => simp [async_update_data, h1, hr] at hg
    | ok rv =>
      by_cases h2 : REFRESH_TIMEOUT < rigsF.duration + (accountF cfg.fiat).duration
      · simpa [async_update_data, h1, hr, h2] using hg
      · cases ha : (accountF cfg.fiat).result with
        | error e1 => simpa [async_update_data, h1, hr, h2, ha] using hg
        | ok av => simpa [async_update_data, h1, hr, h2, ha] using hg

/-- C9: the constructor stores USD as fiat when none is supplied and the
supplied code otherwise; the polling interval is interpreted as minutes
(a timedelta of 60 n seconds for interval n); and every account fetch a
refresh starts is invoked with exactly the configured fiat code. -/
theorem coordinator_fiat_config (n : Int) (f : String) (rigsF : FetchBehavior)
    (accountF : String → FetchBehavior) :
    (coordinator_init n Option.none).fiat = "USD"
    ∧ (coordinator_init n (some f)).fiat = f
    ∧ (coordinator_init n (some f)).update_interval = timedelta_minutes n
    ∧ (timedelta_minutes n).seconds = 60 * n
    ∧ (∀ g, ApiCall.getAccountData g
          ∈ (async_update_data (coordinator_init n (some f)) rigsF accountF).fst
        → g = f) :=
  ⟨rfl, rfl, rfl, rfl, fun g hg => calls_account_arg _ _ _ g hg⟩

/-- C9 witness: a concrete refresh of a coordinator configured with EUR
invokes the account fetch with EUR only. -/
theorem coordinator_fiat_config_witness : ("EUR" : String) = "EUR" :=
  (coordinator_fiat_config 5 "EUR" ⟨Except.ok PyVal.none, 0⟩
    (fun _ => ⟨Except.ok PyVal.none, 0⟩)).2.2.2.2 "EUR" (by decide)

/-- C10: within every refresh the rigs fetch is started first and the
account fetch, when started, is started second with the configured fiat;
when the rigs fetch raises, the account fetch is never started and the
refresh fails with an UpdateFailed having performed only the rigs fetch. -/
theorem fetch_sequencing (cfg : CoordinatorConfig) (rigsF : FetchBehavior)
    (accountF : String → FetchBehavior) :
    ((async_update_data cfg rigsF accountF).fst = [ApiCall.getRigsData]
      ∨ (async_update_data cfg rigsF accountF).fst
          = [ApiCall.getRigsData, ApiCall.getAccountData cfg.fiat])
    ∧ (∀ e, rigsF.result = Except.error e →
        (async_update_data cfg rigsF accountF).fst = [ApiCall.getRigsData]
        ∧ ∃ uf, (async_update_data cfg rigsF accountF).snd = Except.error uf) := by
  by_cases h1 : REFRESH_TIMEOUT < rigsF.duration
  · refine ⟨Or.inl (by simp [async_update_data, h1]), ?_⟩
    intro e he
    exact ⟨by simp [async_update_data, h1],
      wrapUpdateFailed timeoutExc, by simp [async_update_data, h1]⟩
  · cases hr : rigsF.result with
    | error e0 =>
      refine ⟨Or.inl (by simp [async_update_data, h1, hr]), ?_⟩
      intro e he
      exact ⟨by simp [async_update_data, h1, hr],
        wrapUpdateFailed e0, by simp [async_update_data, h1, hr]⟩
    | ok rv =>
      by_cases h2 : REFRESH_TIMEOUT < rigsF.duration + (accountF cfg.fiat).duration
      · exact ⟨Or.inr (by simp [async_update_data, h1, hr, h2]),
          fun e he => Except.noConfusion he⟩
      · cases ha : (accountF cfg.fiat).result with
        | error e1 =>
          exact ⟨Or.inr (by simp [async_update_data, h1, hr, h2, ha]),
            fun e he => Except.noConfusion he⟩
        | ok av =>
          exact ⟨Or.inr (by simp [async_update_data, h1, hr, h2, ha]),
            fun e he => Except.noConfusion he⟩

/-- C10 witness: a concrete refresh whose rigs fetch raises performs only
the rigs fetch and fails. -/
theorem fetch_sequencing_witness :
    (async_update_data (coordinator_init 1 Option.none)
        ⟨Except.error ⟨"HomeAssistantError", "boom"⟩, 2⟩
        (fun _ => ⟨Except.ok PyVal.none, 2⟩)).fst = [ApiCall.getRigsData] :=
  ((fetch_sequencing _ _ _).2 ⟨"HomeAssistantError", "boom"⟩ rfl).1

end NiceHash
